import Mathlib

/-!
Shallow embedding of the asynchronous flow-control module of the
quietwaters/utils repository (src/src/flowcontrol/index.js, with its
duplicated monolith variant src/index.js), together with theorems checking
the natural-language specification against it.

The module has three components:
  - defaultBackoff : exponential backoff policy, capped at 8000 ms;
  - isRetryableError : a pure classifier over JavaScript error-like values;
  - withTimeout / withRetry : a timeout guard and a retry driver.

JavaScript numbers are modelled as rationals extended with NaN and the two
infinities; every comparison the source performs (strict equality against
429, the 500 <= s < 600 band, Math.min against 2147483647 or 8000) is exact
on IEEE doubles in the ranges involved, so the rational model coincides
with the double semantics on all inputs of these functions.
-/

namespace FlowControl

/-- A JavaScript number: a finite value (a rational, which every finite
IEEE-754 double is), NaN, or one of the two infinities. -/
inductive JSNum where
  | fin (q : ℚ)
  | nan
  | inf
  | negInf
deriving DecidableEq

/-- A JavaScript value usable as the field of an error-like object or as a
primitive error argument.  `obj` stands for any object-valued field (always
truthy, never typeof number, never strictly equal to a string literal). -/
inductive JSVal where
  | undefined
  | null
  | bool (b : Bool)
  | num (n : JSNum)
  | str (s : String)
  | obj
deriving DecidableEq

/-- JavaScript truthiness of a value: `undefined`, `null`, `false`, `0`,
`-0`, `NaN` and the empty string are falsy, everything else is truthy. -/
def jsTruthy : JSVal → Bool
  | .undefined => false
  | .null => false
  | .bool b => b
  | .num (.fin q) => decide (q ≠ 0)
  | .num .nan => false
  | .num .inf => true
  | .num .negInf => true
  | .str s => decide (s ≠ "")
  | .obj => true

/-- The JavaScript idiom `v || ""` as used on the `name` and `code` fields:
the value itself when truthy, else the empty string. -/
def jsOrEmpty (v : JSVal) : JSVal :=
  if jsTruthy v then v else .str ""

/-- Strict equality `v === s` of a value against a string literal: true
exactly when `v` is that string. -/
def jsStrEq (v : JSVal) (s : String) : Bool :=
  match v with
  | .str t => decide (t = s)
  | _ => false

/-- Strict equality of a JavaScript number against a finite constant
(`NaN === k` and `Infinity === k` are false for finite `k`). -/
def JSNum.seq (n : JSNum) (k : ℚ) : Bool :=
  match n with
  | .fin q => decide (q = k)
  | _ => false

/-- The comparison `n >= k` for finite `k` (false on NaN). -/
def JSNum.geq (n : JSNum) (k : ℚ) : Bool :=
  match n with
  | .fin q => decide (k ≤ q)
  | .inf => true
  | .negInf => false
  | .nan => false

/-- The comparison `n < k` for finite `k` (false on NaN). -/
def JSNum.ltq (n : JSNum) (k : ℚ) : Bool :=
  match n with
  | .fin q => decide (q < k)
  | .inf => false
  | .negInf => true
  | .nan => false

/-- An error-like argument to the classifier: either a primitive value, or
an object carrying (possibly absent, i.e. `undefined`) fields `status`,
`name` and `code`.  Other fields are never read by the source. -/
inductive JSErr where
  | prim (v : JSVal)
  | obj (status name code : JSVal)
deriving DecidableEq

/-- Truthiness of the classifier argument: objects are always truthy. -/
def JSErr.truthy : JSErr → Bool
  | .prim v => jsTruthy v
  | .obj _ _ _ => true

/-- The `status` field (`undefined` on primitives, which have none of the
fields the classifier reads). -/
def JSErr.statusField : JSErr → JSVal
  | .prim _ => .undefined
  | .obj s _ _ => s

/-- The `name` field. -/
def JSErr.nameField : JSErr → JSVal
  | .prim _ => .undefined
  | .obj _ n _ => n

/-- The `code` field. -/
def JSErr.codeField : JSErr → JSVal
  | .prim _ => .undefined
  | .obj _ _ c => c

/-- Line 11 of the source:
`typeof status === "number" && (status === 429 || (status >= 500 && status < 600))`. -/
def statusRetryable (v : JSVal) : Bool :=
  match v with
  | .num n => n.seq 429 || (n.geq 500 && n.ltq 600)
  | _ => false

/-- `isRetryableError` (src/src/flowcontrol/index.js lines 8-17):
```
function isRetryableError(err) {
  if (!err) return false;
  const status = err.status;
  if (typeof status === "number" && (status === 429 || (status >= 500 && status < 600))) {
    return true;
  }
  const name = err.name || "";
  const code = err.code || "";
  return name === "AbortError" || code === "ECONNRESET" || code === "ETIMEDOUT";
}
``` -/
def isRetryableError (err : JSErr) : Bool :=
  if !err.truthy then false
  else if statusRetryable err.statusField then true
  else
    let name := jsOrEmpty err.nameField
    let code := jsOrEmpty err.codeField
    jsStrEq name "AbortError" || jsStrEq code "ECONNRESET" || jsStrEq code "ETIMEDOUT"

/-- `defaultBackoff` (src/src/flowcontrol/index.js lines 3-6):
`base = 2000 * Math.pow(2, attempt); return Math.min(base, 8000)`.
The double computation of `2000 * 2^attempt` is exact until it saturates
far above 8000 (and overflows to Infinity only past attempt 1013), so the
exact rational value and the double value give the same minimum against
8000 for every natural attempt. -/
def defaultBackoff (attempt : ℕ) : ℚ :=
  min (2000 * 2 ^ attempt) 8000

deriving instance DecidableEq for Except

/-- A single pending asynchronous operation: it settles after exactly
`settleMs` milliseconds, with either a value or a failure.  This is the
denotation of the promise the guard races against its deadline. -/
structure AsyncOp (ε α : Type) where
  settleMs : ℚ
  outcome : Except ε α
deriving DecidableEq

/-- The error the guard synthesizes on deadline expiry (lines 30-31):
`new Error(errorMessage || "Operation timed out"); error.code = "ETIMEDOUT"`. -/
structure TimeoutError where
  message : String
  code : String
deriving DecidableEq

/-- The synthesized timeout error.  `errorMessage || "Operation timed out"`
falls back to the default exactly when the caller-supplied message is
absent or the empty string (the only falsy string). -/
def mkTimeoutError (errorMessage : Option String) : TimeoutError :=
  { message :=
      match errorMessage with
      | some s => if s = "" then "Operation timed out" else s
      | none => "Operation timed out"
    code := "ETIMEDOUT" }

/-- The first argument of `withTimeout`: an already-pending result, or a
zero-argument function producing one (line 20 of the source:
`typeof promiseOrFn === "function" ? promiseOrFn() : promiseOrFn`). -/
inductive OpInput (ε α : Type) where
  | prom (p : AsyncOp ε α)
  | func (f : Unit → AsyncOp ε α)

/-- The promise line 20 obtains from the first argument. -/
def resolveInput : OpInput ε α → AsyncOp ε α
  | .prom p => p
  | .func f => f ()

/-- `!timeoutMs` on the `timeoutMs` argument (a number or `undefined`):
true for `undefined`, `0`, `-0` and `NaN`. -/
def numFalsy : Option JSNum → Bool
  | none => true
  | some (.fin q) => decide (q = 0)
  | some .nan => true
  | some .inf => false
  | some .negInf => false

/-- `timeoutMs <= 0` (comparisons against `undefined` and `NaN` are false). -/
def numLe0 : Option JSNum → Bool
  | none => false
  | some (.fin q) => decide (q ≤ 0)
  | some .nan => false
  | some .inf => false
  | some .negInf => true

/-- `Math.min(n, k)` for a finite constant `k` (NaN propagates). -/
def jsMinConst (n : JSNum) (k : ℚ) : JSNum :=
  match n with
  | .fin q => .fin (min q k)
  | .inf => .fin k
  | .negInf => .negInf
  | .nan => .nan

/-- The finite rational behind a number (0 on the non-finite cases, which
are unreachable where this is used). -/
def JSNum.toQ : JSNum → ℚ
  | .fin q => q
  | _ => 0

/-- Observable events of one `withTimeout` call: invoking the function
argument (line 20), and handing a delay to the platform timer (line 29's
`setTimeout(..., delay)`; the event records the argument passed). -/
inductive TEvent where
  | invokeFn
  | timerCreate (delay : JSNum)
deriving DecidableEq

/-- `withTimeout` (src/src/flowcontrol/index.js lines 19-40), the clamped
variant, as a function from the operation's denotation to the call's
denotation plus its event trace:
```
async function withTimeout(promiseOrFn, timeoutMs, errorMessage) {
  const promise = typeof promiseOrFn === "function" ? promiseOrFn() : promiseOrFn;
  if (!timeoutMs || timeoutMs <= 0) return promise;
  const clampedTimeout = Math.min(timeoutMs, 2147483647);
  let timer;
  const timeoutPromise = new Promise((_, reject) => {
    timer = setTimeout(() => {
      const error = new Error(errorMessage || "Operation timed out");
      error.code = "ETIMEDOUT";
      reject(error);
    }, clampedTimeout);
  });
  try {
    return await Promise.race([promise, timeoutPromise]);
  } finally {
    clearTimeout(timer);
  }
}
```
`Promise.race` settles with whichever of the two settles first.  The
operation settles at `promise.settleMs`; the guard timer fires at the
clamped delay.  When both fall on the same millisecond the operation wins:
its settlement source (for a timer-driven operation, its own timer) is
registered when line 20 runs, before line 29 registers the guard timer,
and the platform fires timers with equal deadlines in registration order.
Failures of the operation are injected with `Sum.inl`, the synthesized
timeout failure with `Sum.inr`: the guard never rewrites the operation's
failure. -/
def withTimeoutTrace (promiseOrFn : OpInput ε α) (timeoutMs : Option JSNum)
    (errorMessage : Option String) :
    AsyncOp (ε ⊕ TimeoutError) α × List TEvent :=
  let state :=
    match promiseOrFn with
    | .func f => (f (), [TEvent.invokeFn])
    | .prom p => (p, ([] : List TEvent))
  let promise := state.1
  if numFalsy timeoutMs || numLe0 timeoutMs then
    (⟨promise.settleMs, promise.outcome.mapError Sum.inl⟩, state.2)
  else
    let clampedTimeout := jsMinConst (timeoutMs.getD .nan) 2147483647
    if promise.settleMs ≤ clampedTimeout.toQ then
      (⟨promise.settleMs, promise.outcome.mapError Sum.inl⟩,
        state.2 ++ [TEvent.timerCreate clampedTimeout])
    else
      (⟨clampedTimeout.toQ, .error (.inr (mkTimeoutError errorMessage))⟩,
        state.2 ++ [TEvent.timerCreate clampedTimeout])

/-- `withTimeout` of the duplicated monolith variant (the copy at lines
84-100 of src/src/flowcontrol/index.js, identically in src/index.js): the
same function except that no clamping is performed — the raw `timeoutMs`
is handed to `setTimeout`.  (For a delay beyond 2147483647 the platform
timer does not honour the request: Node coerces out-of-range delays to
1 ms; the trace records the argument actually passed.) -/
def withTimeoutTraceNoClamp (promiseOrFn : OpInput ε α) (timeoutMs : Option JSNum)
    (errorMessage : Option String) :
    AsyncOp (ε ⊕ TimeoutError) α × List TEvent :=
  let state :=
    match promiseOrFn with
    | .func f => (f (), [TEvent.invokeFn])
    | .prom p => (p, ([] : List TEvent))
  let promise := state.1
  if numFalsy timeoutMs || numLe0 timeoutMs then
    (⟨promise.settleMs, promise.outcome.mapError Sum.inl⟩, state.2)
  else
    let rawTimeout := timeoutMs.getD .nan
    if promise.settleMs ≤ rawTimeout.toQ then
      (⟨promise.settleMs, promise.outcome.mapError Sum.inl⟩,
        state.2 ++ [TEvent.timerCreate rawTimeout])
    else
      (⟨rawTimeout.toQ, .error (.inr (mkTimeoutError errorMessage))⟩,
        state.2 ++ [TEvent.timerCreate rawTimeout])

/-- The observable behaviour of one `withRetry` call: the value returned or
failure thrown, how many times the operation was invoked, and the backoff
durations slept between invocations (in order). -/
structure RetryTrace (ε α : Type) where
  result : Except ε α
  calls : ℕ
  sleeps : List ℚ
deriving DecidableEq

/-- The retry loop of `withRetry` (src/src/flowcontrol/index.js lines
42-58), from the attempt counter `a` on:
```
for (;;) {
  try {
    return await fn(attempt);
  } catch (error) {
    lastError = error;
    if (attempt >= maxRetries || !isRetryable(error)) {
      break;
    }
    await sleep(backoff(attempt));
    attempt += 1;
  }
}
throw lastError;
```
The operation is modelled as a function of the attempt index it is passed
(invocation `i + 1` of the loop runs `fn i`); `sleep` suspends without
affecting control flow, so the loop records the requested durations.  The
loop terminates because `attempt` increases towards `maxRetries`. -/
def retryGo (fn : ℕ → Except ε α) (isRetryable : ε → Bool) (backoff : ℕ → ℚ)
    (maxRetries : ℕ) (a : ℕ) : RetryTrace ε α :=
  match fn a with
  | .ok v => ⟨.ok v, 1, []⟩
  | .error e =>
    if maxRetries ≤ a ∨ isRetryable e = false then ⟨.error e, 1, []⟩
    else
      let rest := retryGo fn isRetryable backoff maxRetries (a + 1)
      ⟨rest.result, rest.calls + 1, backoff a :: rest.sleeps⟩
termination_by maxRetries - a
decreasing_by
  rename_i h
  rw [not_or] at h
  omega

/-- `withRetry(fn, { maxRetries, isRetryable, backoff })`: the loop started
at attempt 0.  The source's option defaults are `maxRetries = 0`,
`isRetryable = isRetryableError` and `backoff = defaultBackoff`. -/
def withRetry (fn : ℕ → Except ε α) (maxRetries : ℕ) (isRetryable : ε → Bool)
    (backoff : ℕ → ℚ) : RetryTrace ε α :=
  retryGo fn isRetryable backoff maxRetries 0

/-- The retryability condition as the specification words it: the input is
non-null and non-absent, and either its `status` field is a finite number
equal to 429 or in [500, 600), or its `name` field is the string
`AbortError`, or its `code` field is `ECONNRESET` or `ETIMEDOUT`. -/
def retryableClaimSpec (err : JSErr) : Prop :=
  (err ≠ .prim .null ∧ err ≠ .prim .undefined) ∧
    ((∃ q : ℚ, err.statusField = .num (.fin q) ∧ (q = 429 ∨ (500 ≤ q ∧ q < 600)))
      ∨ err.nameField = .str "AbortError"
      ∨ err.codeField = .str "ECONNRESET"
      ∨ err.codeField = .str "ETIMEDOUT")

theorem statusRetryable_iff (v : JSVal) :
    statusRetryable v = true ↔
      ∃ q : ℚ, v = .num (.fin q) ∧ (q = 429 ∨ (500 ≤ q ∧ q < 600)) := by
  cases v with
  | num n =>
    cases n <;>
      simp [statusRetryable, JSNum.seq, JSNum.geq, JSNum.ltq]
  | undefined => simp [statusRetryable]
  | null => simp [statusRetryable]
  | bool b => simp [statusRetryable]
  | str s => simp [statusRetryable]
  | obj => simp [statusRetryable]

theorem orEmpty_strEq_iff (v : JSVal) (s : String) (hs : s ≠ "") :
    jsStrEq (jsOrEmpty v) s = true ↔ v = .str s := by
  cases v with
  | str t =>
    by_cases ht : t = ""
    · subst ht
      simp [jsOrEmpty, jsTruthy, jsStrEq, Ne.symm hs]
    · simp [jsOrEmpty, jsTruthy, jsStrEq, ht]
  | bool b => cases b <;> simp [jsOrEmpty, jsTruthy, jsStrEq, Ne.symm hs]
  | num n =>
    cases n with
    | fin q => by_cases hq : q = 0 <;> simp [jsOrEmpty, jsTruthy, jsStrEq, Ne.symm hs, hq]
    | nan => simp [jsOrEmpty, jsTruthy, jsStrEq, Ne.symm hs]
    | inf => simp [jsOrEmpty, jsTruthy, jsStrEq]
    | negInf => simp [jsOrEmpty, jsTruthy, jsStrEq]
  | undefined => simp [jsOrEmpty, jsTruthy, jsStrEq, Ne.symm hs]
  | null => simp [jsOrEmpty, jsTruthy, jsStrEq, Ne.symm hs]
  | obj => simp [jsOrEmpty, jsTruthy, jsStrEq]

theorem isRetryableError_prim (v : JSVal) :
    isRetryableError (.prim v) = false := by
  have hcheck :
      (jsStrEq (jsOrEmpty JSVal.undefined) "AbortError"
        || jsStrEq (jsOrEmpty JSVal.undefined) "ECONNRESET"
        || jsStrEq (jsOrEmpty JSVal.undefined) "ETIMEDOUT") = false := by
    decide
  cases v with
  | str t =>
    by_cases ht : t = "" <;>
      simp [isRetryableError, JSErr.truthy, jsTruthy, JSErr.statusField,
        JSErr.nameField, JSErr.codeField, statusRetryable, hcheck, ht]
  | num n =>
    cases n with
    | fin q =>
      by_cases hq : q = 0 <;>
        simp [isRetryableError, JSErr.truthy, jsTruthy, JSErr.statusField,
          JSErr.nameField, JSErr.codeField, statusRetryable, hcheck, hq]
    | nan =>
      simp [isRetryableError, JSErr.truthy, jsTruthy]
    | inf =>
      simp [isRetryableError, JSErr.truthy, jsTruthy, JSErr.statusField,
        JSErr.nameField, JSErr.codeField, statusRetryable, hcheck]
    | negInf =>
      simp [isRetryableError, JSErr.truthy, jsTruthy, JSErr.statusField,
        JSErr.nameField, JSErr.codeField, statusRetryable, hcheck]
  | bool b =>
    cases b <;>
      simp [isRetryableError, JSErr.truthy, jsTruthy, JSErr.statusField,
        JSErr.nameField, JSErr.codeField, statusRetryable, hcheck]
  | undefined => simp [isRetryableError, JSErr.truthy, jsTruthy]
  | null => simp [isRetryableError, JSErr.truthy, jsTruthy]
  | obj =>
    simp [isRetryableError, JSErr.truthy, jsTruthy, JSErr.statusField,
      JSErr.nameField, JSErr.codeField, statusRetryable, hcheck]

/-- C4: `isRetryableError` returns true exactly on non-null, non-absent
inputs whose `status` field is a finite number equal to 429 or in
[500, 600), or whose `name` is `"AbortError"`, or whose `code` is
`"ECONNRESET"` or `"ETIMEDOUT"`; on every other input — null, absent,
any other primitive, or a 4xx status other than 429 — it returns false.
Totality and determinism hold by construction: the model is a total Lean
function of its argument alone. -/
theorem claim4_isRetryableError_iff (err : JSErr) :
    isRetryableError err = true ↔ retryableClaimSpec err := by
  cases err with
  | prim v =>
    rw [isRetryableError_prim]
    constructor
    · intro h
      exact absurd h (by simp)
    · rintro ⟨-, hdisj⟩
      rcases hdisj with ⟨q, hq, -⟩ | hn | hc | hc
      · simp [JSErr.statusField] at hq
      · simp [JSErr.nameField] at hn
      · simp [JSErr.codeField] at hc
      · simp [JSErr.codeField] at hc
  | obj s n c =>
    have htru : JSErr.truthy (.obj s n c) = true := rfl
    rw [retryableClaimSpec]
    simp only [JSErr.statusField, JSErr.nameField, JSErr.codeField, ne_eq,
      reduceCtorEq, not_false_eq_true, true_and]
    by_cases hst : statusRetryable s = true
    · constructor
      · intro _
        exact Or.inl ((statusRetryable_iff s).mp hst)
      · intro _
        simp [isRetryableError, JSErr.truthy, JSErr.statusField, hst]
    · rw [show isRetryableError (.obj s n c)
          = (jsStrEq (jsOrEmpty n) "AbortError" || jsStrEq (jsOrEmpty c) "ECONNRESET"
              || jsStrEq (jsOrEmpty c) "ETIMEDOUT") by
        simp [isRetryableError, JSErr.truthy, JSErr.statusField,
          JSErr.nameField, JSErr.codeField, hst]]
      rw [Bool.or_eq_true, Bool.or_eq_true]
      rw [orEmpty_strEq_iff n "AbortError" (by decide),
        orEmpty_strEq_iff c "ECONNRESET" (by decide),
        orEmpty_strEq_iff c "ETIMEDOUT" (by decide)]
      constructor
      · intro h
        rcases h with (h | h) | h
        · exact Or.inr (Or.inl h)
        · exact Or.inr (Or.inr (Or.inl h))
        · exact Or.inr (Or.inr (Or.inr h))
      · intro h
        rcases h with h | h | h | h
        · exact absurd ((statusRetryable_iff s).mpr h) hst
        · exact Or.inl (Or.inl h)
        · exact Or.inl (Or.inr h)
        · exact Or.inr h

/-- C9: the default backoff is `min(2000 * 2^attempt, 8000)` milliseconds
for every natural attempt — 2000 at attempt 0, 4000 at attempt 1, capped
at 8000 from attempt 2 on — and is always non-negative. -/
theorem claim9_defaultBackoff (a : ℕ) :
    defaultBackoff a = min (2000 * 2 ^ a) 8000
      ∧ 0 ≤ defaultBackoff a
      ∧ (a = 0 → defaultBackoff a = 2000)
      ∧ (a = 1 → defaultBackoff a = 4000)
      ∧ (2 ≤ a → defaultBackoff a = 8000) := by
  refine ⟨rfl, ?_, ?_, ?_, ?_⟩
  · rw [defaultBackoff]
    exact le_min (by positivity) (by norm_num)
  · rintro rfl
    rw [defaultBackoff, min_def]
    norm_num
  · rintro rfl
    rw [defaultBackoff, min_def]
    norm_num
  · intro h2
    rw [defaultBackoff]
    apply min_eq_right
    have hpow : (4 : ℚ) ≤ 2 ^ a := by
      calc (4 : ℚ) = 2 ^ 2 := by norm_num
        _ ≤ 2 ^ a := pow_le_pow_right₀ (by norm_num) h2
    nlinarith

/-- Witness for C9 at concrete attempts 0, 1 and 3. -/
theorem claim9_defaultBackoff_witness :
    defaultBackoff 0 = 2000 ∧ defaultBackoff 1 = 4000 ∧ defaultBackoff 3 = 8000 :=
  ⟨(claim9_defaultBackoff 0).2.2.1 rfl, (claim9_defaultBackoff 1).2.2.2.1 rfl,
    (claim9_defaultBackoff 3).2.2.2.2 (by norm_num)⟩

/-- C5: when `timeoutMs` is zero, negative or otherwise falsy or unset, the
guard is a no-op — the operation's outcome (value or failure, and its
settling time) is returned unchanged — and no timer is created. -/
theorem claim5_withTimeout_noop (input : OpInput ε α) (t : Option JSNum)
    (msg : Option String) (h : (numFalsy t || numLe0 t) = true) :
    (withTimeoutTrace input t msg).1 =
      ⟨(resolveInput input).settleMs, (resolveInput input).outcome.mapError Sum.inl⟩
    ∧ ∀ d, TEvent.timerCreate d ∉ (withTimeoutTrace input t msg).2 := by
  cases input <;> simp [withTimeoutTrace, resolveInput, h]

/-- Witness for C5: `timeoutMs = 0` on an operation resolving with 42. -/
theorem claim5_withTimeout_noop_witness :
    (withTimeoutTrace (ε := String) (α := ℕ) (.prom ⟨5, .ok 42⟩)
      (some (.fin 0)) none).1 = ⟨5, .ok 42⟩ :=
  (claim5_withTimeout_noop (ε := String) (α := ℕ) (.prom ⟨5, .ok 42⟩)
    (some (.fin 0)) none (by decide)).1

/-- The message the claim prescribes for the Timeout Failure: the
caller-supplied message when non-empty, else the fixed default. -/
def claimTimeoutMessage : Option String → String
  | some s => if s ≠ "" then s else "Operation timed out"
  | none => "Operation timed out"

theorem mkTimeoutError_eq_claim (msg : Option String) :
    mkTimeoutError msg = ⟨claimTimeoutMessage msg, "ETIMEDOUT"⟩ := by
  cases msg with
  | none => rfl
  | some s => by_cases hs : s = "" <;> simp [mkTimeoutError, claimTimeoutMessage, hs]

/-- C6: when the deadline fires strictly before the operation settles, the
call fails with the synthesized Timeout Failure — `code = "ETIMEDOUT"`,
message the caller-supplied one when non-empty, else the fixed default
"Operation timed out" — and when the operation fails strictly before the
deadline, its failure is propagated verbatim (injected unchanged, never
merged into or wrapped inside a Timeout Failure). -/
theorem claim6_timeout_failure (op : AsyncOp ε α) (t : Option JSNum)
    (msg : Option String) (hguard : (numFalsy t || numLe0 t) = false) :
    ((jsMinConst (t.getD .nan) 2147483647).toQ < op.settleMs →
      (withTimeoutTrace (.prom op) t msg).1.outcome =
        .error (.inr ⟨claimTimeoutMessage msg, "ETIMEDOUT"⟩))
    ∧ (∀ e, op.outcome = .error e →
        op.settleMs < (jsMinConst (t.getD .nan) 2147483647).toQ →
        (withTimeoutTrace (.prom op) t msg).1.outcome = .error (.inl e)) := by
  constructor
  · intro hlt
    simp [withTimeoutTrace, hguard, not_le.mpr hlt, mkTimeoutError_eq_claim]
  · intro e he hlt
    simp [withTimeoutTrace, hguard, le_of_lt hlt, he, Except.mapError]

/-- Witness for C6: a 10 ms deadline losing to a 100 ms operation, and a
5 ms failure propagated verbatim through a 10 ms deadline. -/
theorem claim6_timeout_failure_witness :
    (withTimeoutTrace (ε := String) (α := ℕ) (.prom ⟨100, .ok 1⟩)
      (some (.fin 10)) none).1.outcome
        = .error (.inr ⟨"Operation timed out", "ETIMEDOUT"⟩)
    ∧ (withTimeoutTrace (ε := String) (α := ℕ) (.prom ⟨5, .error "boom"⟩)
      (some (.fin 10)) none).1.outcome = .error (.inl "boom") := by
  constructor
  · exact (claim6_timeout_failure (ε := String) (α := ℕ) ⟨100, .ok 1⟩
      (some (.fin 10)) none (by decide)).1
      (by norm_num [jsMinConst, JSNum.toQ, min_def])
  · exact (claim6_timeout_failure (ε := String) (α := ℕ) ⟨5, .error "boom"⟩
      (some (.fin 10)) none (by decide)).2 "boom" rfl
      (by norm_num [jsMinConst, JSNum.toQ, min_def])

/-- C7: evaluation of both source variants at an over-range timeout.  The
clamped variant (lines 19-40) hands the platform timer exactly
`min(timeoutMs, 2147483647)` and still resolves with the operation's
outcome at `timeoutMs = Number.MAX_SAFE_INTEGER = 9007199254740991`; the
duplicated monolith variant (the copy at lines 84-100, identically
src/index.js) hands the platform timer the raw 9007199254740991, which is
not the clamped minimum — the claim fails on that variant (Node coerces
the out-of-range delay to 1 ms, so a deadline meant to be effectively
unlimited fires almost immediately). -/
theorem claim7_clamp_evaluation :
    (withTimeoutTrace (ε := String) (α := ℕ) (.prom ⟨10, .ok 1⟩)
      (some (.fin 9007199254740991)) none).2
        = [TEvent.timerCreate (.fin 2147483647)]
    ∧ (withTimeoutTrace (ε := String) (α := ℕ) (.prom ⟨10, .ok 1⟩)
      (some (.fin 9007199254740991)) none).1.outcome = .ok 1
    ∧ (withTimeoutTraceNoClamp (ε := String) (α := ℕ) (.prom ⟨10, .ok 1⟩)
      (some (.fin 9007199254740991)) none).2
        = [TEvent.timerCreate (.fin 9007199254740991)]
    ∧ JSNum.fin 9007199254740991 ≠ jsMinConst (.fin 9007199254740991) 2147483647 := by
  refine ⟨?_, ?_, ?_, ?_⟩
  · norm_num [withTimeoutTrace, numFalsy, numLe0, jsMinConst, JSNum.toQ, min_def]
  · norm_num [withTimeoutTrace, numFalsy, numLe0, jsMinConst, JSNum.toQ, min_def,
      Except.mapError]
  · norm_num [withTimeoutTraceNoClamp, numFalsy, numLe0, JSNum.toQ]
  · norm_num [jsMinConst, min_def]

/-- C8 counterexample: with the operation settling at exactly the deadline
(`d = t = 10`), the race is won by the operation — its settlement source
is registered at line 20, before line 29 registers the guard timer, and
equal-deadline timers fire in registration order — so the call resolves
with the operation's value instead of rejecting with the Timeout Failure
the claim demands at the boundary. -/
theorem claim8_boundary_counterexample :
    (withTimeoutTrace (ε := String) (.prom ⟨10, .ok "v"⟩)
      (some (.fin 10)) none).1.outcome = .ok "v"
    ∧ (withTimeoutTrace (ε := String) (.prom ⟨10, .ok "v"⟩)
      (some (.fin 10)) none).1.outcome ≠ .error (.inr (mkTimeoutError none)) := by
  constructor
  · decide
  · decide

/-- C8 (amended): for a positive timeout `t` within the platform's timer
range and an operation settling after exactly `d` ms, the call resolves
with the operation's value when `d ≤ t` and rejects with a failure whose
code is `"ETIMEDOUT"` when `d > t`; at the boundary `d = t` the outcome is
the operation's result, not the timeout. -/
theorem claim8_race_amended (op : AsyncOp ε α) (q : ℚ) (msg : Option String)
    (h0 : 0 < q) (hmax : q ≤ 2147483647) :
    (∀ v, op.outcome = .ok v → op.settleMs ≤ q →
      (withTimeoutTrace (.prom op) (some (.fin q)) msg).1.outcome = .ok v)
    ∧ (q < op.settleMs →
      (withTimeoutTrace (.prom op) (some (.fin q)) msg).1.outcome
          = .error (.inr (mkTimeoutError msg))
        ∧ (mkTimeoutError msg).code = "ETIMEDOUT") := by
  have hguard : (numFalsy (some (.fin q)) || numLe0 (some (.fin q))) = false := by
    simp [numFalsy, numLe0, ne_of_gt h0, not_le.mpr h0]
  have hclamp : (jsMinConst (JSNum.fin q) 2147483647).toQ = q := by
    simp [jsMinConst, JSNum.toQ, min_eq_left hmax]
  constructor
  · intro v hv hle
    simp [withTimeoutTrace, hguard, hclamp, hle, hv, Except.mapError]
  · intro hgt
    refine ⟨?_, rfl⟩
    simp [withTimeoutTrace, hguard, hclamp, not_le.mpr hgt]

/-- Witness for the amended C8: `t = 10` with an operation resolving at
5 ms (value returned) and one resolving at 100 ms (timeout). -/
theorem claim8_race_amended_witness :
    (withTimeoutTrace (ε := String) (α := ℕ) (.prom ⟨5, .ok 7⟩)
      (some (.fin 10)) none).1.outcome = .ok 7
    ∧ (withTimeoutTrace (ε := String) (α := ℕ) (.prom ⟨100, .ok 7⟩)
      (some (.fin 10)) none).1.outcome = .error (.inr (mkTimeoutError none)) := by
  constructor
  · exact (claim8_race_amended (ε := String) (α := ℕ) ⟨5, .ok 7⟩ 10 none
      (by norm_num) (by norm_num)).1 7 rfl (by norm_num)
  · exact ((claim8_race_amended (ε := String) (α := ℕ) ⟨100, .ok 7⟩ 10 none
      (by norm_num) (by norm_num)).2 (by norm_num)).1

/-- Recognizer for the function-invocation event. -/
def isInvokeEvent : TEvent → Bool
  | .invokeFn => true
  | .timerCreate _ => false

theorem withTimeoutTrace_prom_no_invoke (p : AsyncOp ε α) (t : Option JSNum)
    (msg : Option String) :
    ((withTimeoutTrace (.prom p) t msg).2.filter isInvokeEvent) = [] := by
  by_cases hg : (numFalsy t || numLe0 t) = true
  · simp [withTimeoutTrace, hg]
  · rw [Bool.not_eq_true] at hg
    by_cases hr : p.settleMs ≤ (jsMinConst (t.getD .nan) 2147483647).toQ
    · simp [withTimeoutTrace, hg, hr, isInvokeEvent]
    · simp [withTimeoutTrace, hg, hr, isInvokeEvent]

/-- C10: a zero-argument function passed as the first argument is invoked
exactly once, before the guard tests `timeoutMs` (the invocation event
precedes every other event of the call), and the call then behaves exactly
as it would on the already-pending result the function produced — also on
the no-op path where `timeoutMs` is falsy or non-positive. -/
theorem claim10_function_argument (f : Unit → AsyncOp ε α) (t : Option JSNum)
    (msg : Option String) :
    withTimeoutTrace (.func f) t msg =
      ((withTimeoutTrace (.prom (f ())) t msg).1,
        TEvent.invokeFn :: (withTimeoutTrace (.prom (f ())) t msg).2)
    ∧ ((withTimeoutTrace (.func f) t msg).2.filter isInvokeEvent).length = 1 := by
  have key : withTimeoutTrace (.func f) t msg =
      ((withTimeoutTrace (.prom (f ())) t msg).1,
        TEvent.invokeFn :: (withTimeoutTrace (.prom (f ())) t msg).2) := by
    by_cases hg : (numFalsy t || numLe0 t) = true
    · simp [withTimeoutTrace, hg]
    · rw [Bool.not_eq_true] at hg
      by_cases hr : (f ()).settleMs ≤ (jsMinConst (t.getD .nan) 2147483647).toQ
      · simp [withTimeoutTrace, hg, hr]
      · simp [withTimeoutTrace, hg, hr]
  refine ⟨key, ?_⟩
  rw [key]
  simp [List.filter, isInvokeEvent, withTimeoutTrace_prom_no_invoke]

theorem retryGo_ok (fn : ℕ → Except ε α) (isR : ε → Bool) (b : ℕ → ℚ)
    (m a : ℕ) (v : α) (hfe : fn a = .ok v) :
    retryGo fn isR b m a = ⟨.ok v, 1, []⟩ := by
  rw [retryGo, hfe]

theorem retryGo_break (fn : ℕ → Except ε α) (isR : ε → Bool) (b : ℕ → ℚ)
    (m a : ℕ) (e : ε) (hfe : fn a = .error e) (h : m ≤ a ∨ isR e = false) :
    retryGo fn isR b m a = ⟨.error e, 1, []⟩ := by
  rw [retryGo, hfe]
  simp [h]

theorem retryGo_step (fn : ℕ → Except ε α) (isR : ε → Bool) (b : ℕ → ℚ)
    (m a : ℕ) (e : ε) (hfe : fn a = .error e) (hm : a < m) (hr : isR e = true) :
    retryGo fn isR b m a =
      ⟨(retryGo fn isR b m (a + 1)).result,
        (retryGo fn isR b m (a + 1)).calls + 1,
        b a :: (retryGo fn isR b m (a + 1)).sleeps⟩ := by
  rw [retryGo, hfe]
  simp [not_le.mpr hm, hr]

theorem retryGo_calls_pos (fn : ℕ → Except ε α) (isR : ε → Bool) (b : ℕ → ℚ)
    (m : ℕ) : ∀ a, 1 ≤ (retryGo fn isR b m a).calls := by
  intro a
  cases hfe : fn a with
  | ok v =>
    rw [retryGo_ok fn isR b m a v hfe]
  | error e =>
    by_cases h : m ≤ a ∨ isR e = false
    · rw [retryGo_break fn isR b m a e hfe h]
    · rw [not_or, Bool.not_eq_false, not_le] at h
      rw [retryGo_step fn isR b m a e hfe h.1 h.2]
      show 1 ≤ (retryGo fn isR b m (a + 1)).calls + 1
      omega

theorem retryGo_calls_le (fn : ℕ → Except ε α) (isR : ε → Bool) (b : ℕ → ℚ)
    (m : ℕ) : ∀ j a, m - a ≤ j → (retryGo fn isR b m a).calls ≤ m - a + 1 := by
  intro j
  induction j with
  | zero =>
    intro a hj
    cases hfe : fn a with
    | ok v =>
      rw [retryGo_ok fn isR b m a v hfe]
      show 1 ≤ m - a + 1
      omega
    | error e =>
      rw [retryGo_break fn isR b m a e hfe (Or.inl (by omega))]
      show 1 ≤ m - a + 1
      omega
  | succ j ih =>
    intro a hj
    cases hfe : fn a with
    | ok v =>
      rw [retryGo_ok fn isR b m a v hfe]
      show 1 ≤ m - a + 1
      omega
    | error e =>
      by_cases h : m ≤ a ∨ isR e = false
      · rw [retryGo_break fn isR b m a e hfe h]
        show 1 ≤ m - a + 1
        omega
      · rw [not_or, Bool.not_eq_false, not_le] at h
        rw [retryGo_step fn isR b m a e hfe h.1 h.2]
        have hrec := ih (a + 1) (by omega)
        show (retryGo fn isR b m (a + 1)).calls + 1 ≤ m - a + 1
        omega

theorem retryGo_result_last (fn : ℕ → Except ε α) (isR : ε → Bool) (b : ℕ → ℚ)
    (m : ℕ) : ∀ j a, m - a ≤ j →
      (retryGo fn isR b m a).result = fn (a + (retryGo fn isR b m a).calls - 1) := by
  intro j
  induction j with
  | zero =>
    intro a hj
    cases hfe : fn a with
    | ok v => rw [retryGo_ok fn isR b m a v hfe]; simpa using hfe.symm
    | error e =>
      rw [retryGo_break fn isR b m a e hfe (Or.inl (by omega))]
      simpa using hfe.symm
  | succ j ih =>
    intro a hj
    cases hfe : fn a with
    | ok v => rw [retryGo_ok fn isR b m a v hfe]; simpa using hfe.symm
    | error e =>
      by_cases h : m ≤ a ∨ isR e = false
      · rw [retryGo_break fn isR b m a e hfe h]
        simpa using hfe.symm
      · rw [not_or, Bool.not_eq_false, not_le] at h
        rw [retryGo_step fn isR b m a e hfe h.1 h.2]
        have hrec := ih (a + 1) (by omega)
        show (retryGo fn isR b m (a + 1)).result
          = fn (a + ((retryGo fn isR b m (a + 1)).calls + 1) - 1)
        rw [hrec]
        congr 1
        omega

/-- C2: the retry driver always terminates (the model is a total function,
with the loop's decreasing measure `maxRetries - attempt` as its
termination argument) and invokes the operation at most `maxRetries + 1`
times, for every operation and every classifier — including an operation
that always fails and a classifier that always answers true; with
`maxRetries = 0` the operation is invoked exactly once. -/
theorem claim2_withRetry_bounded (fn : ℕ → Except ε α) (m : ℕ)
    (isR : ε → Bool) (b : ℕ → ℚ) :
    (withRetry fn m isR b).calls ≤ m + 1
    ∧ (m = 0 → (withRetry fn m isR b).calls = 1) := by
  have hle := retryGo_calls_le fn isR b m m 0 (by omega)
  have hpos := retryGo_calls_pos fn isR b m 0
  refine ⟨by simpa [withRetry] using hle, ?_⟩
  rintro rfl
  have hle0 := retryGo_calls_le fn isR b 0 0 0 (by omega)
  simp only [withRetry]
  omega

/-- Witness for C2: an operation that always fails, a classifier that
always answers true, `maxRetries = 0` — exactly one invocation. -/
theorem claim2_withRetry_bounded_witness :
    (withRetry (fun _ => (.error 0 : Except ℕ ℕ)) 0 (fun _ => true)
      (fun _ => 0)).calls = 1 :=
  (claim2_withRetry_bounded (fun _ => (.error 0 : Except ℕ ℕ)) 0 (fun _ => true)
    (fun _ => 0)).2 rfl

/-- C3: whenever `withRetry` ends in terminal failure, the failure it
re-raises is exactly the one produced by the operation's final (most
recent) invocation — invocation number `calls`, i.e. attempt index
`calls - 1` — never an earlier one, and the failure is surfaced to the
caller rather than swallowed (the call's result is that failure). -/
theorem claim3_rethrows_last (fn : ℕ → Except ε α) (m : ℕ) (isR : ε → Bool)
    (b : ℕ → ℚ) (e : ε) (h : (withRetry fn m isR b).result = .error e) :
    fn ((withRetry fn m isR b).calls - 1) = .error e
    ∧ 1 ≤ (withRetry fn m isR b).calls := by
  have hlast := retryGo_result_last fn isR b m m 0 (by omega)
  have hpos := retryGo_calls_pos fn isR b m 0
  rw [withRetry] at h ⊢
  rw [h] at hlast
  exact ⟨by simpa using hlast.symm, hpos⟩

/-- Witness for C3: three distinct failures 0, 1, 2 with `maxRetries = 2`;
the re-raised failure is the last one, `fn 2 = error 2`. -/
theorem claim3_rethrows_last_witness :
    (fun i => (Except.error i : Except ℕ ℕ))
        ((withRetry (fun i => (Except.error i : Except ℕ ℕ)) 2 (fun _ => true)
          (fun _ => 0)).calls - 1) = Except.error 2
    ∧ (withRetry (fun i => (Except.error i : Except ℕ ℕ)) 2 (fun _ => true)
        (fun _ => 0)).result = Except.error 2 := by
  have hres : (withRetry (fun i => (Except.error i : Except ℕ ℕ)) 2 (fun _ => true)
      (fun _ => 0)).result = Except.error 2 := by
    simp [withRetry, retryGo]
  exact ⟨(claim3_rethrows_last (fun i => (Except.error i : Except ℕ ℕ)) 2
    (fun _ => true) (fun _ => 0) 2 hres).1, hres⟩

theorem retryGo_success (fn : ℕ → Except ε α) (isR : ε → Bool) (b : ℕ → ℚ)
    {m k : ℕ} (v : α) (e : ℕ → ε) (hk : k ≤ m)
    (hf : ∀ i, i < k → fn i = .error (e i)) (hok : fn k = .ok v)
    (hr : ∀ i, i < k → isR (e i) = true) :
    ∀ j a, k - a ≤ j → a ≤ k →
      (retryGo fn isR b m a).result = .ok v
      ∧ (retryGo fn isR b m a).calls = k - a + 1 := by
  intro j
  induction j with
  | zero =>
    intro a hj ha
    have hak : a = k := by omega
    subst hak
    rw [retryGo_ok fn isR b m a v hok]
    refine ⟨rfl, ?_⟩
    show (1 : ℕ) = a - a + 1
    omega
  | succ j ih =>
    intro a hj ha
    rcases eq_or_lt_of_le ha with rfl | hlt
    · rw [retryGo_ok fn isR b m a v hok]
      refine ⟨rfl, ?_⟩
      show (1 : ℕ) = a - a + 1
      omega
    · rw [retryGo_step fn isR b m a (e a) (hf a hlt) (by omega) (hr a hlt)]
      have hrec := ih (a + 1) (by omega) (by omega)
      refine ⟨hrec.1, ?_⟩
      show (retryGo fn isR b m (a + 1)).calls + 1 = k - a + 1
      rw [hrec.2]
      omega

theorem retryGo_exhaust (fn : ℕ → Except ε α) (isR : ε → Bool) (b : ℕ → ℚ)
    {m : ℕ} (e : ℕ → ε)
    (hf : ∀ i, i ≤ m → fn i = .error (e i))
    (hr : ∀ i, i < m → isR (e i) = true) :
    ∀ j a, m - a ≤ j → a ≤ m →
      (retryGo fn isR b m a).result = .error (e m)
      ∧ (retryGo fn isR b m a).calls = m - a + 1 := by
  intro j
  induction j with
  | zero =>
    intro a hj ha
    have ham : a = m := by omega
    subst ham
    rw [retryGo_break fn isR b a a (e a) (hf a le_rfl) (Or.inl le_rfl)]
    refine ⟨rfl, ?_⟩
    show (1 : ℕ) = a - a + 1
    omega
  | succ j ih =>
    intro a hj ha
    rcases eq_or_lt_of_le ha with rfl | hlt
    · rw [retryGo_break fn isR b a a (e a) (hf a le_rfl) (Or.inl le_rfl)]
      refine ⟨rfl, ?_⟩
      show (1 : ℕ) = a - a + 1
      omega
    · rw [retryGo_step fn isR b m a (e a) (hf a (by omega)) hlt (hr a hlt)]
      have hrec := ih (a + 1) (by omega) (by omega)
      refine ⟨hrec.1, ?_⟩
      show (retryGo fn isR b m (a + 1)).calls + 1 = m - a + 1
      rw [hrec.2]
      omega

/-- C1 (amended): for an operation that fails on its first `k` invocations
and succeeds on invocation `k + 1`, provided every failure raised before
invocation `min(m, k) + 1` is classified retryable by the configured
predicate, `withRetry` with `maxRetries = m` invokes the operation exactly
`min(m, k) + 1` times and, when `k ≤ m`, resolves with the success value
the operation produced.  (The unconditional form of the claim is refuted by
`claim1_retry_count_counterexample`: on a non-retryable failure the driver
stops early.) -/
theorem claim1_retry_count (fn : ℕ → Except ε α) (m : ℕ) (isR : ε → Bool)
    (b : ℕ → ℚ) (k : ℕ) (v : α) (e : ℕ → ε)
    (hf : ∀ i, i < k → fn i = .error (e i))
    (hok : fn k = .ok v)
    (hr : ∀ i, i < min m k → isR (e i) = true) :
    (withRetry fn m isR b).calls = min m k + 1
    ∧ (k ≤ m → (withRetry fn m isR b).result = .ok v) := by
  rcases le_or_lt k m with hkm | hmk
  · have hmin : min m k = k := min_eq_right hkm
    rw [hmin] at hr ⊢
    have h := retryGo_success fn isR b v e hkm hf hok hr k 0 (by omega) (by omega)
    rw [withRetry]
    exact ⟨by rw [h.2]; omega, fun _ => h.1⟩
  · have hmin : min m k = m := min_eq_left (le_of_lt hmk)
    rw [hmin] at hr ⊢
    have h := retryGo_exhaust fn isR b e
      (fun i hi => hf i (by omega)) hr m 0 (by omega) (by omega)
    rw [withRetry]
    exact ⟨by rw [h.2]; omega, fun hkm => absurd hkm (by omega)⟩

/-- An error carrying none of the classification fields: a plain object
failure, which `isRetryableError` classifies as not retryable. -/
def plainFailure : JSErr := JSErr.obj .undefined .undefined .undefined

/-- The operation of the C1 counterexample: fails once with a plain
(non-retryable) failure, then succeeds — `k = 1`. -/
def claim1CxOp : ℕ → Except JSErr String :=
  fun i => if i = 0 then .error plainFailure else .ok "ok"

/-- C1 counterexample: the operation fails on its first invocation only
(`k = 1`) and `maxRetries = 3`, so the claim demands
`min(3, 1) + 1 = 2` invocations and resolution with `"ok"`; under the
source's default configuration the single failure is not retryable, the
driver stops after exactly 1 invocation and re-raises the failure. -/
theorem claim1_retry_count_counterexample :
    (withRetry claim1CxOp 3 isRetryableError defaultBackoff).calls = 1
    ∧ (withRetry claim1CxOp 3 isRetryableError defaultBackoff).result
        = .error plainFailure
    ∧ (1 : ℕ) ≠ min 3 1 + 1 := by
  have h : withRetry claim1CxOp 3 isRetryableError defaultBackoff
      = ⟨.error plainFailure, 1, []⟩ := by
    rw [withRetry]
    rw [retryGo_break claim1CxOp isRetryableError defaultBackoff 3 0 plainFailure
      (by simp [claim1CxOp]) (Or.inr (by decide))]
  rw [h]
  exact ⟨rfl, rfl, by decide⟩

/-- Witness for the amended C1: failures at attempts 0 and 1 (`k = 2`),
always-retryable classifier, `maxRetries = 3`: exactly
`min(3, 2) + 1 = 3` invocations and resolution with `"ok"`. -/
theorem claim1_retry_count_witness :
    (withRetry (fun i => if i < 2 then .error i else .ok "ok") 3
      (fun _ => true) (fun _ => 0)).calls = 3
    ∧ (withRetry (fun i => if i < 2 then .error i else .ok "ok") 3
      (fun _ => true) (fun _ => 0)).result = .ok "ok" := by
  have h := claim1_retry_count (fun i => if i < 2 then .error i else .ok "ok") 3
    (fun _ => true) (fun _ => 0) 2 "ok" (fun i => i)
    (fun i hi => by simp [hi]) (by simp) (fun i _ => rfl)
  exact ⟨by rw [h.1]; decide, h.2 (by omega)⟩

end FlowControl
